import Mathlib

/-!
Shallow embedding of `travel_location_finder/main.go` (package `main`).

The program queries the `google-flights-api/flights` service; here the
service (`Session`) is an oracle of pure functions returning `Except`, and
`log.Fatal` is modelled as an `Except.error` that aborts the run.  Prices
(`float64` in Go) are modelled as rationals; durations (`time.Duration`,
int64 nanoseconds) and calendar times as integers.  The concurrent fan-out
(one goroutine per attendee, one per candidate date pair, a first
`log.Fatal` killing the process) is given a sequential denotation that
processes requests and date pairs in list order; counting and
error-propagation facts are schedule-independent.  Only the struct fields
the program reads are modelled.
-/

set_option autoImplicit false

namespace TravelLocationFinder

/-- Cabin classes of the flights package (`flights.Class`). -/
inductive Class
  | Economy
  | PremiumEconomy
  | Business
  | First
deriving DecidableEq

/-- Currency option; the program only ever uses `currency.USD`. -/
inductive Currency
  | USD
deriving DecidableEq

/-- Stop policy of the flights package; the program uses `flights.Stop2`. -/
inductive Stops
  | Nonstop
  | Stop1
  | Stop2
  | AnyStops
deriving DecidableEq

/-- Trip type of the flights package; the program uses `flights.RoundTrip`. -/
inductive TripType
  | RoundTrip
  | OneWay
deriving DecidableEq

/-- Language option; the program uses `language.English`. -/
inductive Lang
  | English
deriving DecidableEq

/-- Traveler counts (`flights.Travelers`); only `Adults` is ever set. -/
structure Travelers where
  Adults : Int
deriving DecidableEq

/-- Query options (`flights.Options`). -/
structure Options where
  Travelers : Travelers
  Currency : Currency
  Stops : Stops
  Class : Class
  TripType : TripType
  Lang : Lang
deriving DecidableEq

/-- Arguments of `session.GetOffers` (`flights.Args`); dates are opaque codes. -/
structure Args where
  Date : Int
  ReturnDate : Int
  SrcCities : List String
  DstCities : List String
  Options : Options
deriving DecidableEq

/-- Arguments of `session.GetPriceGraph` (`flights.PriceGraphArgs`). -/
structure PriceGraphArgs where
  RangeStartDate : Int
  RangeEndDate : Int
  TripLength : Int
  SrcCities : List String
  DstCities : List String
  Options : Options
deriving DecidableEq

/-- Concrete offer (`flights.FullOffer`); the program reads only `Price`
(a Go `float64`, modelled as a rational) and `FlightDuration`
(`time.Duration`, int64 nanoseconds, modelled as an integer). -/
structure FullOffer where
  Price : ℚ
  FlightDuration : Int
deriving DecidableEq

/-- Go zero value of `flights.FullOffer`, the initial value of the local
variables `bestDuration` and `bestOffer`. -/
def FullOffer.zeroValue : FullOffer :=
  { Price := 0, FlightDuration := 0 }

/-- Price-graph offer (`flights.Offer`); the program reads only the
candidate date pair `StartDate`/`ReturnDate`. -/
structure Offer where
  StartDate : Int
  ReturnDate : Int
deriving DecidableEq

/-- One printed best-offer line:
`fmt.Println("Best offer for", src, "to", dst, "is", bestOffer.Price)`. -/
structure Line where
  src : String
  dst : String
  price : ℚ
deriving DecidableEq

/-- Oracle for the pricing service (`flights.Session`): each call either
returns a value or fails (in the Go code a failure is hit by `log.Fatal`). -/
structure Session where
  GetOffers : Args → Except String (List FullOffer)
  GetPriceGraph : PriceGraphArgs → Except String (List Offer)

/-- Ambient time environment: `time.Now()` and `Time.AddDate(years, months,
days)`, left abstract since dates are opaque codes. -/
structure Env where
  now : Int
  addDate : Int → Int → Int → Int → Int

/-- One nanosecond-valued hour, `time.Hour`. -/
def hour : Int := 3600 * 1000000000

/-- Options of the duration probe in `lookup_flight_time`. -/
def probeOptions : Options :=
  { Travelers := { Adults := 1 }
    Currency := Currency.USD
    Stops := Stops.Stop2
    Class := Class.Economy
    TripType := TripType.RoundTrip
    Lang := Lang.English }

/-- The `for` loop of `lookup_flight_time`: starting from the zero-valued
`bestDuration`, an offer replaces the running best iff its `FlightDuration`
is nonzero and the running best is zero or larger; the loop's result is
`bestDuration.FlightDuration`. -/
def shortestDuration (offers : List FullOffer) : Int :=
  (offers.foldl
    (fun bestDuration offer =>
      if offer.FlightDuration ≠ 0 ∧
          (bestDuration.FlightDuration = 0 ∨
            offer.FlightDuration < bestDuration.FlightDuration)
      then offer else bestDuration)
    FullOffer.zeroValue).FlightDuration

/-- `lookup_flight_time`: probe `GetOffers` for a round trip one month from
now with a 7-day stay, then return the shortest nonzero flight duration
(the Go function `log.Fatal`s on a service error, modelled as `.error`). -/
def lookup_flight_time (env : Env) (session : Session) (src dst : String) :
    Except String Int :=
  match session.GetOffers
      { Date := env.addDate env.now 0 1 0
        ReturnDate := env.addDate env.now 0 1 7
        SrcCities := [src]
        DstCities := [dst]
        Options := probeOptions } with
  | Except.error e => Except.error e
  | Except.ok offers => Except.ok (shortestDuration offers)

/-- The classification if-chain of `GetFlightClass` applied to a probed
flight time. -/
def GetFlightClassOfDuration (flight_time : Int) : Class :=
  if flight_time < 6 * hour then Class.Economy
  else if flight_time ≥ 6 * hour ∧ flight_time < 10 * hour then
    Class.PremiumEconomy
  else Class.Business

/-- `GetFlightClass`: look up the shortest flight time and classify it. -/
def GetFlightClass (env : Env) (session : Session) (src dst : String) :
    Except String Class :=
  match lookup_flight_time env session src dst with
  | Except.error e => Except.error e
  | Except.ok flight_time => Except.ok (GetFlightClassOfDuration flight_time)

/-- The `for` loop of `GetActualOffers`: starting from the zero-valued
`bestOffer`, an offer replaces the running best iff the running best's
price is 0 or the offer's price is strictly smaller (there is no nonzero
guard on the incoming offer's price). -/
def bestOfferLoop (offers : List FullOffer) : FullOffer :=
  offers.foldl
    (fun bestOffer offer =>
      if bestOffer.Price = 0 ∨ offer.Price < bestOffer.Price
      then offer else bestOffer)
    FullOffer.zeroValue

/-- `GetActualOffers`: fetch concrete offers for one candidate date pair
(overriding the query's date window with the pair's exact dates), reduce
them with `bestOfferLoop`, and print one best-offer line. -/
def GetActualOffers (session : Session) (priceGraphOffer : Offer)
    (Req : PriceGraphArgs) (src dst : String) : Except String Line :=
  match session.GetOffers
      { Date := priceGraphOffer.StartDate
        ReturnDate := priceGraphOffer.ReturnDate
        SrcCities := Req.SrcCities
        DstCities := Req.DstCities
        Options := Req.Options } with
  | Except.error e => Except.error e
  | Except.ok offers =>
      Except.ok { src := src, dst := dst, price := (bestOfferLoop offers).Price }

/-- Sequential denotation of the per-date-pair goroutine fan-out in
`Processor` (`go GetActualOffers(...)` then `lg.Wait()`): each candidate
date pair yields one printed line; a failing fetch `log.Fatal`s, keeping
the lines already produced and dropping the rest. -/
def processPairs (session : Session) (Req : PriceGraphArgs) (src dst : String) :
    List Offer → List Line × Option String
  | [] => ([], none)
  | p :: ps =>
      match GetActualOffers session p Req src dst with
      | Except.error e => ([], some e)
      | Except.ok line =>
          let rest := processPairs session Req src dst ps
          (line :: rest.1, rest.2)

/-- Query actually submitted to `session.GetPriceGraph` by `Processor`:
the dequeued request with `Req.Options.Class` set to the class chosen by
`GetFlightClass` (the Go code indexes `SrcCities[0]`/`DstCities[0]`; the
dispatched queries always carry singleton city lists). -/
def submittedQuery (env : Env) (session : Session) (Req : PriceGraphArgs) :
    Except String PriceGraphArgs :=
  match GetFlightClass env session (Req.SrcCities.headD "") (Req.DstCities.headD "") with
  | Except.error e => Except.error e
  | Except.ok class_ =>
      Except.ok { Req with Options := { Req.Options with Class := class_ } }

/-- Candidate date pairs returned by the price graph for one request. -/
def graphPairs (env : Env) (session : Session) (Req : PriceGraphArgs) :
    Except String (List Offer) :=
  match submittedQuery env session Req with
  | Except.error e => Except.error e
  | Except.ok Req2 => session.GetPriceGraph Req2

/-- The concrete-offers call made for one candidate date pair of a request
(the call `GetActualOffers` makes inside `Processor`'s fan-out). -/
def pairCall (env : Env) (session : Session) (Req : PriceGraphArgs)
    (p : Offer) : Except String Line :=
  match submittedQuery env session Req with
  | Except.error e => Except.error e
  | Except.ok Req2 =>
      GetActualOffers session p Req2 (Req.SrcCities.headD "") (Req.DstCities.headD "")

/-- Number of candidate date pairs the price graph returns for a request
(0 when a call on the way fails). -/
def numDatePairs (env : Env) (session : Session) (Req : PriceGraphArgs) : Nat :=
  match graphPairs env session Req with
  | Except.error _ => 0
  | Except.ok pairs => pairs.length

/-- Body of `Processor` for one dequeued request: choose the class, set it
on the request, query the price graph, then fan out one fetch per candidate
date pair; any service error is fatal. -/
def processReq (env : Env) (session : Session) (Req : PriceGraphArgs) :
    List Line × Option String :=
  match submittedQuery env session Req with
  | Except.error e => ([], some e)
  | Except.ok Req2 =>
      match session.GetPriceGraph Req2 with
      | Except.error e => ([], some e)
      | Except.ok priceGraphOffers =>
          processPairs session Req2 (Req.SrcCities.headD "") (Req.DstCities.headD "")
            priceGraphOffers

/-- Sequential denotation of the worker pool: the attendees' requests are
processed one after the other; a fatal error stops the run, keeping the
lines already printed. -/
def runReqs (env : Env) (session : Session) :
    List PriceGraphArgs → List Line × Option String
  | [] => ([], none)
  | Req :: rest =>
      match processReq env session Req with
      | (lines, some e) => (lines, some e)
      | (lines, none) =>
          let r := runReqs env session rest
          (lines ++ r.1, r.2)

/-- Classification rules section of the YAML config (`Config.Rules`);
parsed but never read by the shipped classification logic. -/
structure Rules where
  BusinessMinHrs : Int
  PremiumMinHrs : Int
deriving DecidableEq

/-- One attendee entry of the YAML config. -/
structure Attendee where
  City : String
  Travelers : Int
deriving DecidableEq

/-- The parsed YAML configuration (`Config`). -/
structure Config where
  Rules : Rules
  Attendees : List Attendee
deriving DecidableEq

/-- The four command-line flags of `main`; the string flags default to `""`
and `nights` defaults to `0` when absent. -/
structure Flags where
  destination : String
  startDate : String
  endDate : String
  nights : Int
deriving DecidableEq

/-- Message of the startup validation failure in `main`. -/
def flagsErrorMsg : String :=
  "destination, start-date, end-date and nights are required"

/-- The `baseArgs` template of `main`, shared by all attendees: `Travelers`
and `Class` are left at their Go zero values (`Adults: 0` and the zero
enum value, here `Economy`); `SrcCities` is unset. -/
def baseArgs (flags : Flags) (startDateParsed endDateParsed : Int) :
    PriceGraphArgs :=
  { RangeStartDate := startDateParsed
    RangeEndDate := endDateParsed
    TripLength := flags.nights
    SrcCities := []
    DstCities := [flags.destination]
    Options :=
      { Travelers := { Adults := 0 }
        Currency := Currency.USD
        Stops := Stops.Stop2
        Class := Class.Economy
        TripType := TripType.RoundTrip
        Lang := Lang.English } }

/-- The queries the coordinator loop of `main` pushes onto the
`FlightRequirements` channel: one copy of `baseArgs` per attendee with that
attendee's city and traveler count. -/
def dispatchedQueries (flags : Flags) (startDateParsed endDateParsed : Int)
    (config : Config) : List PriceGraphArgs :=
  config.Attendees.map (fun source =>
    { baseArgs flags startDateParsed endDateParsed with
        SrcCities := [source.City]
        Options :=
          { (baseArgs flags startDateParsed endDateParsed).Options with
              Travelers := { Adults := source.Travelers } } })

/-- Continuation of `main` after the flag validation: read the config,
parse the two dates, build and dispatch the queries, and run the pipeline
(`flights.New` is the ambient `session` oracle). -/
def mainAfterFlags (flags : Flags) (readConfig : Except String Config)
    (parseDate : String → Except String Int) (env : Env) (session : Session) :
    List Line × Option String :=
  match readConfig with
  | Except.error e => ([], some e)
  | Except.ok config =>
      match parseDate flags.startDate with
      | Except.error e => ([], some e)
      | Except.ok startDateParsed =>
          match parseDate flags.endDate with
          | Except.error e => ([], some e)
          | Except.ok endDateParsed =>
              runReqs env session
                (dispatchedQueries flags startDateParsed endDateParsed config)

/-- Denotation of `main`: validate the four flags first (`log.Fatal` with
`flagsErrorMsg` when one is absent), then continue with `mainAfterFlags`. -/
def mainRun (flags : Flags) (readConfig : Except String Config)
    (parseDate : String → Except String Int) (env : Env) (session : Session) :
    List Line × Option String :=
  if flags.destination = "" ∨ flags.startDate = "" ∨ flags.endDate = "" ∨
      flags.nights = 0 then
    ([], some flagsErrorMsg)
  else
    mainAfterFlags flags readConfig parseDate env session

/-! Concrete data used to exercise the definitions. -/

/-- Concrete time environment: `now = 0`, `AddDate` counts months as 30
days (the concrete values are irrelevant, dates are opaque codes). -/
def envW : Env :=
  { now := 0, addDate := fun t y m d => t + 365 * y + 30 * m + d }

/-- Service oracle that never fails: every concrete-offers call returns no
offers and every price-graph call returns two candidate date pairs. -/
def sessAllOk : Session :=
  { GetOffers := fun _ => Except.ok []
    GetPriceGraph := fun _ => Except.ok [{ StartDate := 1, ReturnDate := 2 },
                                         { StartDate := 3, ReturnDate := 4 }] }

/-- Service oracle with two failure modes: any concrete-offers call for an
outbound date 3 fails, and any price-graph call for origin `"ERR"` fails;
everything else succeeds, the price graph returning three date pairs. -/
def sessFail : Session :=
  { GetOffers := fun a => if a.Date = 3 then Except.error "boom" else Except.ok []
    GetPriceGraph := fun g =>
      if g.SrcCities = ["ERR"] then Except.error "grapherr"
      else Except.ok [{ StartDate := 1, ReturnDate := 2 },
                      { StartDate := 3, ReturnDate := 4 },
                      { StartDate := 5, ReturnDate := 6 }] }

/-- Concrete command-line flags with all four inputs present. -/
def flagsW : Flags :=
  { destination := "IST", startDate := "2025-02-02", endDate := "2025-02-07",
    nights := 6 }

/-- Concrete flags with an absent (empty) destination. -/
def flagsMissingW : Flags :=
  { destination := "", startDate := "2025-02-02", endDate := "2025-02-07",
    nights := 6 }

/-- Concrete flags with all four inputs present and a negative nights
value. -/
def flagsNegW : Flags :=
  { destination := "IST", startDate := "2025-02-02", endDate := "2025-02-07",
    nights := -3 }

/-- Concrete configuration with a single attendee. -/
def configW : Config :=
  { Rules := { BusinessMinHrs := 10, PremiumMinHrs := 6 }
    Attendees := [{ City := "NYC", Travelers := 1 }] }

/-- Request whose price-graph call fails under `sessFail`. -/
def reqErrW : PriceGraphArgs :=
  { RangeStartDate := 10, RangeEndDate := 20, TripLength := 6,
    SrcCities := ["ERR"], DstCities := ["IST"], Options := probeOptions }

/-- Request whose price-graph call succeeds under `sessFail` but whose
second date-pair fetch fails. -/
def reqOkW : PriceGraphArgs :=
  { RangeStartDate := 10, RangeEndDate := 20, TripLength := 6,
    SrcCities := ["NYC"], DstCities := ["IST"], Options := probeOptions }

/-- Request carrying a stale cabin class, dispatched to `sessAllOk`. -/
def reqClassW : PriceGraphArgs :=
  { reqOkW with Options := { probeOptions with Class := Class.Business } }

/-- The query `Processor` submits for `reqClassW` under `sessAllOk`: the
probe finds no offers, so the duration is 0 and the class becomes Economy. -/
def reqClassW2 : PriceGraphArgs :=
  { reqClassW with Options := { reqClassW.Options with Class := Class.Economy } }

/-! Scalar views of the two reduction loops, used by the proofs below. -/

/-- Price component of the `bestOfferLoop` fold. -/
def priceFold (b : ℚ) (l : List ℚ) : ℚ :=
  l.foldl (fun best q => if best = 0 ∨ q < best then q else best) b

/-- Duration component of the `shortestDuration` fold. -/
def durFold (b : Int) (l : List Int) : Int :=
  l.foldl (fun best d => if d ≠ 0 ∧ (best = 0 ∨ d < best) then d else best) b

lemma bestOfferLoop_foldl_price :
    ∀ (l : List FullOffer) (b : FullOffer),
      (l.foldl (fun bestOffer offer =>
          if bestOffer.Price = 0 ∨ offer.Price < bestOffer.Price
          then offer else bestOffer) b).Price
        = priceFold b.Price (l.map FullOffer.Price)
  | [], _ => rfl
  | o :: l, b => by
      have h := bestOfferLoop_foldl_price l
        (if b.Price = 0 ∨ o.Price < b.Price then o else b)
      simp only [List.foldl, List.map, priceFold] at h ⊢
      rw [h, apply_ite FullOffer.Price]

lemma bestOfferLoop_price (l : List FullOffer) :
    (bestOfferLoop l).Price = priceFold 0 (l.map FullOffer.Price) :=
  bestOfferLoop_foldl_price l FullOffer.zeroValue

lemma shortestDuration_foldl :
    ∀ (l : List FullOffer) (b : FullOffer),
      (l.foldl (fun bestDuration offer =>
          if offer.FlightDuration ≠ 0 ∧
              (bestDuration.FlightDuration = 0 ∨
                offer.FlightDuration < bestDuration.FlightDuration)
          then offer else bestDuration) b).FlightDuration
        = durFold b.FlightDuration (l.map FullOffer.FlightDuration)
  | [], _ => rfl
  | o :: l, b => by
      have h := shortestDuration_foldl l
        (if o.FlightDuration ≠ 0 ∧
            (b.FlightDuration = 0 ∨ o.FlightDuration < b.FlightDuration)
         then o else b)
      simp only [List.foldl, List.map, durFold] at h ⊢
      rw [h, apply_ite FullOffer.FlightDuration]

lemma shortestDuration_eq_durFold (offers : List FullOffer) :
    shortestDuration offers = durFold 0 (offers.map FullOffer.FlightDuration) :=
  shortestDuration_foldl offers FullOffer.zeroValue

lemma priceFold_min (l : List ℚ) :
    ∀ b : ℚ, b ≠ 0 → (∀ q ∈ l, q ≠ 0) →
      (priceFold b l = b ∨ priceFold b l ∈ l) ∧
      priceFold b l ≤ b ∧ ∀ q ∈ l, priceFold b l ≤ q := by
  induction l with
  | nil =>
      intro b _ _
      exact ⟨Or.inl rfl, le_refl b, by simp⟩
  | cons q l ih =>
      intro b hb hl
      have hq : q ≠ 0 := hl q (List.mem_cons_self q l)
      have hl2 : ∀ x ∈ l, x ≠ 0 := fun x hx => hl x (List.mem_cons_of_mem q hx)
      by_cases hlt : q < b
      · have hstep : priceFold b (q :: l) = priceFold q l := by
          simp only [priceFold, List.foldl]
          rw [if_pos (Or.inr hlt)]
        obtain ⟨hmem, hle, hall⟩ := ih q hq hl2
        refine ⟨?_, ?_, ?_⟩
        · rw [hstep]
          rcases hmem with h | h
          · rw [h]; exact Or.inr (List.mem_cons_self q l)
          · exact Or.inr (List.mem_cons_of_mem q h)
        · rw [hstep]; exact le_trans hle (le_of_lt hlt)
        · intro x hx
          rw [hstep]
          rcases List.mem_cons.mp hx with h | h
          · exact h ▸ hle
          · exact hall x h
      · have hstep : priceFold b (q :: l) = priceFold b l := by
          simp only [priceFold, List.foldl]
          rw [if_neg (not_or.mpr ⟨hb, hlt⟩)]
        obtain ⟨hmem, hle, hall⟩ := ih b hb hl2
        refine ⟨?_, ?_, ?_⟩
        · rw [hstep]
          rcases hmem with h | h
          · exact Or.inl h
          · exact Or.inr (List.mem_cons_of_mem q h)
        · rw [hstep]; exact hle
        · intro x hx
          rw [hstep]
          rcases List.mem_cons.mp hx with h | h
          · exact h ▸ le_trans hle (not_lt.mp hlt)
          · exact hall x h

lemma bestOfferLoop_min (offers : List FullOffer) (hne : offers ≠ [])
    (h : ∀ o ∈ offers, o.Price ≠ 0) :
    (bestOfferLoop offers).Price ∈ offers.map FullOffer.Price ∧
    ∀ p ∈ offers.map FullOffer.Price, (bestOfferLoop offers).Price ≤ p := by
  cases offers with
  | nil => exact absurd rfl hne
  | cons o l =>
      have ho : o.Price ≠ 0 := h o (List.mem_cons_self o l)
      have hl : ∀ q ∈ l.map FullOffer.Price, q ≠ 0 := by
        intro q hq
        obtain ⟨x, hx, rfl⟩ := List.mem_map.mp hq
        exact h x (List.mem_cons_of_mem o hx)
      have hprice : (bestOfferLoop (o :: l)).Price
          = priceFold o.Price (l.map FullOffer.Price) := by
        rw [bestOfferLoop_price]
        show priceFold 0 (o.Price :: l.map FullOffer.Price) = _
        simp only [priceFold, List.foldl]
        rw [if_pos (Or.inl trivial)]
      obtain ⟨hmem, hle, hall⟩ := priceFold_min (l.map FullOffer.Price) o.Price ho hl
      constructor
      · rw [hprice]
        rcases hmem with hm | hm
        · exact List.mem_map.mpr ⟨o, List.mem_cons_self o l, hm.symm⟩
        · obtain ⟨x, hx, hxe⟩ := List.mem_map.mp hm
          exact List.mem_map.mpr ⟨x, List.mem_cons_of_mem o hx, hxe⟩
      · intro p hp
        rw [hprice]
        obtain ⟨x, hx, rfl⟩ := List.mem_map.mp hp
        rcases List.mem_cons.mp hx with hm | hm
        · rw [hm]; exact hle
        · exact hall x.Price (List.mem_map.mpr ⟨x, hm, rfl⟩)

lemma durFold_nonzero (l : List Int) :
    ∀ b : Int, b ≠ 0 →
      (durFold b l = b ∨ durFold b l ∈ l) ∧
      durFold b l ≤ b ∧ (∀ d ∈ l, d ≠ 0 → durFold b l ≤ d) ∧ durFold b l ≠ 0 := by
  induction l with
  | nil =>
      intro b hb
      exact ⟨Or.inl rfl, le_refl b, by simp, hb⟩
  | cons d l ih =>
      intro b hb
      by_cases hc : d ≠ 0 ∧ d < b
      · have hstep : durFold b (d :: l) = durFold d l := by
          simp only [durFold, List.foldl]
          rw [if_pos ⟨hc.1, Or.inr hc.2⟩]
        obtain ⟨hmem, hle, hall, hne⟩ := ih d hc.1
        refine ⟨?_, ?_, ?_, ?_⟩
        · rw [hstep]
          rcases hmem with h | h
          · rw [h]; exact Or.inr (List.mem_cons_self d l)
          · exact Or.inr (List.mem_cons_of_mem d h)
        · rw [hstep]; exact le_trans hle (le_of_lt hc.2)
        · intro x hx hxne
          rw [hstep]
          rcases List.mem_cons.mp hx with h | h
          · rw [h]; exact hle
          · exact hall x h hxne
        · rw [hstep]; exact hne
      · have hcond : ¬(d ≠ 0 ∧ (b = 0 ∨ d < b)) := by
          intro hx
          rcases hx.2 with h0 | hlt
          · exact hb h0
          · exact hc ⟨hx.1, hlt⟩
        have hstep : durFold b (d :: l) = durFold b l := by
          simp only [durFold, List.foldl]
          rw [if_neg hcond]
        obtain ⟨hmem, hle, hall, hne⟩ := ih b hb
        refine ⟨?_, ?_, ?_, ?_⟩
        · rw [hstep]
          rcases hmem with h | h
          · exact Or.inl h
          · exact Or.inr (List.mem_cons_of_mem d h)
        · rw [hstep]; exact hle
        · intro x hx hxne
          rw [hstep]
          rcases List.mem_cons.mp hx with h | h
          · subst h
            have hbd : b ≤ x := not_lt.mp (fun hlt => hc ⟨hxne, hlt⟩)
            exact le_trans hle hbd
          · exact hall x h hxne
        · rw [hstep]; exact hne

lemma durFold_zero (l : List Int) :
    (durFold 0 l = 0 ∧ ∀ d ∈ l, d = 0) ∨
    ((durFold 0 l ∈ l ∧ durFold 0 l ≠ 0) ∧
      ∀ d ∈ l, d ≠ 0 → durFold 0 l ≤ d) := by
  induction l with
  | nil => exact Or.inl ⟨rfl, by simp⟩
  | cons d l ih =>
      by_cases hd : d = 0
      · have hstep : durFold 0 (d :: l) = durFold 0 l := by
          simp only [durFold, List.foldl]
          rw [if_neg (fun hx => hx.1 hd)]
        rcases ih with ⟨h1, h2⟩ | ⟨⟨hm, hne⟩, hall⟩
        · left
          refine ⟨hstep.trans h1, ?_⟩
          intro x hx
          rcases List.mem_cons.mp hx with h | h
          · rw [h]; exact hd
          · exact h2 x h
        · right
          refine ⟨⟨?_, ?_⟩, ?_⟩
          · rw [hstep]; exact List.mem_cons_of_mem d hm
          · rw [hstep]; exact hne
          · intro x hx hxne
            rw [hstep]
            rcases List.mem_cons.mp hx with h | h
            · exact absurd (h ▸ hd) hxne
            · exact hall x h hxne
      · have hstep : durFold 0 (d :: l) = durFold d l := by
          simp only [durFold, List.foldl]
          rw [if_pos ⟨hd, Or.inl trivial⟩]
        obtain ⟨hmem, hle, hall, hne⟩ := durFold_nonzero l d hd
        right
        refine ⟨⟨?_, ?_⟩, ?_⟩
        · rw [hstep]
          rcases hmem with h | h
          · rw [h]; exact List.mem_cons_self d l
          · exact List.mem_cons_of_mem d h
        · rw [hstep]; exact hne
        · intro x hx hxne
          rw [hstep]
          rcases List.mem_cons.mp hx with h | h
          · rw [h]; exact hle
          · exact hall x h hxne

lemma except_isOk_exists {α : Type} (x : Except String α) (h : x.isOk = true) :
    ∃ v, x = Except.ok v := by
  cases x with
  | error e => simp [Except.isOk, Except.toBool] at h
  | ok v => exact ⟨v, rfl⟩

lemma processPairs_err_none_iff (session : Session) (Req : PriceGraphArgs)
    (src dst : String) :
    ∀ ps : List Offer,
      (processPairs session Req src dst ps).2 = none ↔
        ∀ p ∈ ps, (GetActualOffers session p Req src dst).isOk = true := by
  intro ps
  induction ps with
  | nil => simp [processPairs]
  | cons p ps ih =>
      cases hg : GetActualOffers session p Req src dst with
      | error e =>
          simp [processPairs, hg, List.forall_mem_cons, Except.isOk, Except.toBool]
      | ok line =>
          simp [processPairs, hg, List.forall_mem_cons, Except.isOk, Except.toBool, ih]

lemma processPairs_lines (session : Session) (Req : PriceGraphArgs)
    (src dst : String) :
    ∀ ps : List Offer,
      (processPairs session Req src dst ps).1 =
        (ps.takeWhile (fun p => (GetActualOffers session p Req src dst).isOk)).filterMap
          (fun p => (GetActualOffers session p Req src dst).toOption) := by
  intro ps
  induction ps with
  | nil => simp [processPairs]
  | cons p ps ih =>
      cases hg : GetActualOffers session p Req src dst with
      | error e =>
          simp [processPairs, hg, List.takeWhile, Except.isOk, Except.toBool,
            List.filterMap_cons]
      | ok line =>
          simp [processPairs, hg, List.takeWhile, Except.isOk, Except.toBool,
            Except.toOption, List.filterMap_cons, ih]

lemma processReq_err_none_iff (env : Env) (session : Session)
    (Req : PriceGraphArgs) :
    (processReq env session Req).2 = none ↔
      ∃ pairs, graphPairs env session Req = Except.ok pairs ∧
        ∀ p ∈ pairs, (pairCall env session Req p).isOk = true := by
  cases hs : submittedQuery env session Req with
  | error e => simp [processReq, hs, graphPairs]
  | ok Req2 =>
      cases hg : session.GetPriceGraph Req2 with
      | error e => simp [processReq, hs, hg, graphPairs]
      | ok pairs =>
          simp [processReq, hs, hg, graphPairs, pairCall, processPairs_err_none_iff]

lemma processReq_graph_error (env : Env) (session : Session)
    (Req : PriceGraphArgs) (e : String)
    (h : graphPairs env session Req = Except.error e) :
    processReq env session Req = ([], some e) := by
  cases hs : submittedQuery env session Req with
  | error e2 =>
      simp only [graphPairs, hs] at h
      injection h with h
      subst h
      simp [processReq, hs]
  | ok Req2 =>
      simp only [graphPairs, hs] at h
      simp [processReq, hs, h]

lemma processReq_lines (env : Env) (session : Session) (Req : PriceGraphArgs)
    (pairs : List Offer) (h : graphPairs env session Req = Except.ok pairs) :
    (processReq env session Req).1 =
      (pairs.takeWhile (fun p => (pairCall env session Req p).isOk)).filterMap
        (fun p => (pairCall env session Req p).toOption) := by
  cases hs : submittedQuery env session Req with
  | error e =>
      simp only [graphPairs, hs] at h
      exact Except.noConfusion h
  | ok Req2 =>
      simp only [graphPairs, hs] at h
      simp only [processReq, hs, h, pairCall]
      exact processPairs_lines session Req2 (Req.SrcCities.headD "")
        (Req.DstCities.headD "") pairs

lemma runReqs_err_none_iff (env : Env) (session : Session) :
    ∀ qs : List PriceGraphArgs,
      (runReqs env session qs).2 = none ↔
        ∀ q ∈ qs, (processReq env session q).2 = none := by
  intro qs
  induction qs with
  | nil => simp [runReqs]
  | cons q qs ih =>
      rcases hq : processReq env session q with ⟨lines, e?⟩
      cases e? with
      | none => simp [runReqs, hq, List.forall_mem_cons, ih]
      | some e => simp [runReqs, hq, List.forall_mem_cons]

lemma runReqs_lines (env : Env) (session : Session) :
    ∀ qs : List PriceGraphArgs,
      (runReqs env session qs).1 =
        (qs.takeWhile (fun q => (processReq env session q).2.isNone)).flatMap
          (fun q => (processReq env session q).1) ++
        (((qs.dropWhile (fun q => (processReq env session q).2.isNone)).head?.map
          (fun q => (processReq env session q).1)).getD []) := by
  intro qs
  induction qs with
  | nil => simp [runReqs]
  | cons q qs ih =>
      rcases hq : processReq env session q with ⟨lines, e?⟩
      cases e? with
      | none =>
          simp [runReqs, hq, List.takeWhile, List.dropWhile, Option.isNone, ih,
            List.append_assoc]
      | some e =>
          simp [runReqs, hq, List.takeWhile, List.dropWhile, Option.isNone]

lemma lookup_flight_time_ok (env : Env) (session : Session) (src dst : String)
    (hOff : ∀ a, (session.GetOffers a).isOk = true) :
    ∃ d, lookup_flight_time env session src dst = Except.ok d := by
  unfold lookup_flight_time
  cases ha : session.GetOffers
      { Date := env.addDate env.now 0 1 0
        ReturnDate := env.addDate env.now 0 1 7
        SrcCities := [src]
        DstCities := [dst]
        Options := probeOptions } with
  | error e =>
      have h2 := hOff
        { Date := env.addDate env.now 0 1 0
          ReturnDate := env.addDate env.now 0 1 7
          SrcCities := [src]
          DstCities := [dst]
          Options := probeOptions }
      rw [ha] at h2
      simp [Except.isOk, Except.toBool] at h2
  | ok offers => exact ⟨_, rfl⟩

lemma submittedQuery_ok (env : Env) (session : Session) (Req : PriceGraphArgs)
    (hOff : ∀ a, (session.GetOffers a).isOk = true) :
    ∃ Req2, submittedQuery env session Req = Except.ok Req2 := by
  obtain ⟨d, hd⟩ := lookup_flight_time_ok env session (Req.SrcCities.headD "")
    (Req.DstCities.headD "") hOff
  refine ⟨{ Req with Options :=
    { Req.Options with Class := GetFlightClassOfDuration d } }, ?_⟩
  simp only [submittedQuery, GetFlightClass, hd]

lemma GetActualOffers_ok (session : Session) (p : Offer) (Req : PriceGraphArgs)
    (src dst : String) (hOff : ∀ a, (session.GetOffers a).isOk = true) :
    ∃ line, GetActualOffers session p Req src dst = Except.ok line := by
  unfold GetActualOffers
  obtain ⟨v, hv⟩ := except_isOk_exists _ (hOff
    { Date := p.StartDate
      ReturnDate := p.ReturnDate
      SrcCities := Req.SrcCities
      DstCities := Req.DstCities
      Options := Req.Options })
  rw [hv]
  exact ⟨_, rfl⟩

lemma processPairs_all_ok (session : Session) (Req : PriceGraphArgs)
    (src dst : String) (hOff : ∀ a, (session.GetOffers a).isOk = true) :
    ∀ ps : List Offer,
      (processPairs session Req src dst ps).2 = none ∧
      (processPairs session Req src dst ps).1.length = ps.length := by
  intro ps
  induction ps with
  | nil => simp [processPairs]
  | cons p ps ih =>
      obtain ⟨line, hline⟩ := GetActualOffers_ok session p Req src dst hOff
      simp [processPairs, hline, ih]

lemma processReq_all_ok (env : Env) (session : Session) (Req : PriceGraphArgs)
    (hOff : ∀ a, (session.GetOffers a).isOk = true)
    (hGr : ∀ g, (session.GetPriceGraph g).isOk = true) :
    (processReq env session Req).2 = none ∧
    (processReq env session Req).1.length = numDatePairs env session Req := by
  obtain ⟨Req2, hs⟩ := submittedQuery_ok env session Req hOff
  obtain ⟨pairs, hg⟩ := except_isOk_exists _ (hGr Req2)
  have hnum : numDatePairs env session Req = pairs.length := by
    simp [numDatePairs, graphPairs, hs, hg]
  have hpp := processPairs_all_ok session Req2 (Req.SrcCities.headD "")
    (Req.DstCities.headD "") hOff pairs
  constructor
  · simp only [processReq, hs, hg]
    exact hpp.1
  · rw [hnum]
    simp only [processReq, hs, hg]
    exact hpp.2

lemma runReqs_all_ok (env : Env) (session : Session)
    (hOff : ∀ a, (session.GetOffers a).isOk = true)
    (hGr : ∀ g, (session.GetPriceGraph g).isOk = true) :
    ∀ qs : List PriceGraphArgs,
      (runReqs env session qs).2 = none ∧
      (runReqs env session qs).1.length =
        (qs.map (numDatePairs env session)).sum := by
  intro qs
  induction qs with
  | nil => simp [runReqs]
  | cons q qs ih =>
      obtain ⟨hq2, hqlen⟩ := processReq_all_ok env session q hOff hGr
      rcases hq : processReq env session q with ⟨lines, e?⟩
      rw [hq] at hq2 hqlen
      cases e? with
      | some e => cases hq2
      | none =>
          constructor
          · simp [runReqs, hq, ih.1]
          · simp [runReqs, hq, ih.2, hqlen]

/-- Claim C1, counterexample: in the offer list `[price 5, price 0]` a
zero-price offer replaces the running best of nonzero price 5 (since
`0 < 5`), and the reduction in `GetActualOffers` yields price 0 even though
an offer with nonzero price is present — contradicting the claim that a
zero result is produced only when no offer has a nonzero price. -/
theorem claim_C1_counterexample :
    (∃ o ∈ ([⟨5, 0⟩, ⟨0, 0⟩] : List FullOffer), o.Price ≠ 0) ∧
    (bestOfferLoop [⟨5, 0⟩, ⟨0, 0⟩]).Price = 0 := by
  decide

/-- Claim C1, amended: whenever every offer in the list has a nonzero
price, the reduction performed in `GetActualOffers` selects the minimum
price among them; with zero-price offers present a zero-price offer does
replace a nonzero running best, so the result need not be the minimum
nonzero price and can be zero even when a nonzero-price offer exists. -/
theorem claim_C1 :
    ∀ offers : List FullOffer, offers ≠ [] → (∀ o ∈ offers, o.Price ≠ 0) →
      ∃ o ∈ offers, (bestOfferLoop offers).Price = o.Price ∧
        ∀ o2 ∈ offers, (bestOfferLoop offers).Price ≤ o2.Price := by
  intro offers hne h
  obtain ⟨hmem, hall⟩ := bestOfferLoop_min offers hne h
  obtain ⟨o, ho, hoe⟩ := List.mem_map.mp hmem
  refine ⟨o, ho, hoe.symm, ?_⟩
  intro o2 ho2
  exact hall o2.Price (List.mem_map.mpr ⟨o2, ho2, rfl⟩)

/-- Claim C1, witness: on the all-nonzero list `[7, 3, 9]` the reduction
picks an offer of the list and is bounded by the price 7. -/
theorem claim_C1_witness :
    (∃ o ∈ ([⟨7, 0⟩, ⟨3, 0⟩, ⟨9, 0⟩] : List FullOffer),
      (bestOfferLoop [⟨7, 0⟩, ⟨3, 0⟩, ⟨9, 0⟩]).Price = o.Price ∧
        ∀ o2 ∈ ([⟨7, 0⟩, ⟨3, 0⟩, ⟨9, 0⟩] : List FullOffer),
          (bestOfferLoop [⟨7, 0⟩, ⟨3, 0⟩, ⟨9, 0⟩]).Price ≤ o2.Price) :=
  claim_C1 [⟨7, 0⟩, ⟨3, 0⟩, ⟨9, 0⟩] (by decide) (by decide)

/-- Claim C3, counterexample: the lists `[5, 0, 7]` and `[7, 0, 5]` are
permutations of each other, yet the reduction in `GetActualOffers` yields
price 7 on the first and price 5 on the second — the reduction is not
order-independent when a zero-price offer is present. -/
theorem claim_C3_counterexample :
    ([⟨5, 0⟩, ⟨0, 0⟩, ⟨7, 0⟩] : List FullOffer).Perm [⟨7, 0⟩, ⟨0, 0⟩, ⟨5, 0⟩] ∧
    (bestOfferLoop [⟨5, 0⟩, ⟨0, 0⟩, ⟨7, 0⟩]).Price ≠
      (bestOfferLoop [⟨7, 0⟩, ⟨0, 0⟩, ⟨5, 0⟩]).Price ∧
    (bestOfferLoop [⟨5, 0⟩, ⟨0, 0⟩, ⟨7, 0⟩]).Price = 7 ∧
    (bestOfferLoop [⟨7, 0⟩, ⟨0, 0⟩, ⟨5, 0⟩]).Price = 5 := by
  decide

/-- Claim C3, amended: the reduction in `GetActualOffers` is
order-independent on lists in which every offer has a nonzero price:
permuting such a list does not change the resulting best price. -/
theorem claim_C3 :
    ∀ l1 l2 : List FullOffer, l1.Perm l2 → (∀ o ∈ l1, o.Price ≠ 0) →
      (bestOfferLoop l1).Price = (bestOfferLoop l2).Price := by
  intro l1 l2 hp h1
  by_cases hnil : l1 = []
  · subst hnil
    have h2 : l2 = [] := hp.symm.eq_nil
    rw [h2]
  · have hne2 : l2 ≠ [] := by
      intro h2
      subst h2
      exact hnil hp.eq_nil
    have h2 : ∀ o ∈ l2, o.Price ≠ 0 := fun o ho => h1 o (hp.symm.subset ho)
    obtain ⟨m1, b1⟩ := bestOfferLoop_min l1 hnil h1
    obtain ⟨m2, b2⟩ := bestOfferLoop_min l2 hne2 h2
    have hmap : (l1.map FullOffer.Price).Perm (l2.map FullOffer.Price) :=
      hp.map FullOffer.Price
    exact le_antisymm (b1 _ (hmap.symm.subset m2)) (b2 _ (hmap.subset m1))

/-- Claim C3, witness: swapping the two all-nonzero offers `[3, 8]` leaves
the reduced best price unchanged. -/
theorem claim_C3_witness :
    (bestOfferLoop [⟨3, 0⟩, ⟨8, 0⟩]).Price =
      (bestOfferLoop [⟨8, 0⟩, ⟨3, 0⟩]).Price :=
  claim_C3 [⟨3, 0⟩, ⟨8, 0⟩] [⟨8, 0⟩, ⟨3, 0⟩] (by decide) (by decide)

/-- Claim C4: `GetFlightClass` classifies a probed duration `d` as Economy
iff `d < 6h`, Premium Economy iff `6h ≤ d < 10h`, and Business iff
`d ≥ 10h`; at the boundaries `classify(6h) = PremiumEconomy` and
`classify(10h) = Business`, an undefined (zero) duration yields Economy,
and `GetFlightClass` is exactly this classification applied to the result
of the duration probe. -/
theorem claim_C4 :
    ∀ d : Int,
      (GetFlightClassOfDuration d = Class.Economy ↔ d < 6 * hour) ∧
      (GetFlightClassOfDuration d = Class.PremiumEconomy ↔
        6 * hour ≤ d ∧ d < 10 * hour) ∧
      (GetFlightClassOfDuration d = Class.Business ↔ 10 * hour ≤ d) ∧
      GetFlightClassOfDuration (6 * hour) = Class.PremiumEconomy ∧
      GetFlightClassOfDuration (10 * hour) = Class.Business ∧
      GetFlightClassOfDuration 0 = Class.Economy ∧
      ∀ (env : Env) (session : Session) (src dst : String),
        GetFlightClass env session src dst =
          (lookup_flight_time env session src dst).map GetFlightClassOfDuration := by
  intro d
  have hr : hour = 3600 * 1000000000 := rfl
  refine ⟨?_, ?_, ?_, by decide, by decide, by decide, ?_⟩
  · unfold GetFlightClassOfDuration
    split_ifs with h1 h2
    · exact iff_of_true rfl h1
    · exact iff_of_false (by decide) h1
    · exact iff_of_false (by decide) h1
  · unfold GetFlightClassOfDuration
    split_ifs with h1 h2
    · exact iff_of_false (by decide) (by omega)
    · exact iff_of_true rfl (by omega)
    · exact iff_of_false (by decide) (by omega)
  · unfold GetFlightClassOfDuration
    split_ifs with h1 h2
    · exact iff_of_false (by decide) (by omega)
    · exact iff_of_false (by decide) (by omega)
    · exact iff_of_true rfl (by omega)
  · intro env session src dst
    cases hl : lookup_flight_time env session src dst with
    | error e => simp [GetFlightClass, hl, Except.map]
    | ok ft => simp [GetFlightClass, hl, Except.map]

/-- Claim C5: two runs whose configurations differ only in the configured
classification thresholds (`rules.business_min_hrs`, `rules.premium_min_hrs`)
produce identical results — the configured rule values have no influence on
the pipeline, whose classification uses the fixed 6-hour and 10-hour
breakpoints of `GetFlightClassOfDuration`. -/
theorem claim_C5 :
    ∀ (flags : Flags) (parseDate : String → Except String Int) (env : Env)
      (session : Session) (rules1 rules2 : Rules) (attendees : List Attendee),
      mainRun flags (Except.ok { Rules := rules1, Attendees := attendees })
          parseDate env session =
        mainRun flags (Except.ok { Rules := rules2, Attendees := attendees })
          parseDate env session := by
  intro flags parseDate env session rules1 rules2 attendees
  rfl

/-- Claim C7: the reduction in `lookup_flight_time` returns a value that is
a lower bound of every nonzero flight duration in the probed offers, is
itself one of the nonzero durations unless it is 0, and is 0 exactly when
no offer has a nonzero duration (in particular on an empty list). -/
theorem claim_C7 :
    ∀ offers : List FullOffer,
      (∀ o ∈ offers, o.FlightDuration ≠ 0 →
        shortestDuration offers ≤ o.FlightDuration) ∧
      (shortestDuration offers = 0 ∨
        ∃ o ∈ offers, shortestDuration offers = o.FlightDuration ∧
          o.FlightDuration ≠ 0) ∧
      (shortestDuration offers = 0 ↔ ∀ o ∈ offers, o.FlightDuration = 0) := by
  intro offers
  have hsd := shortestDuration_eq_durFold offers
  rcases durFold_zero (offers.map FullOffer.FlightDuration) with
    ⟨h0, hall⟩ | ⟨⟨hm, hne⟩, hall⟩
  · have hsz : shortestDuration offers = 0 := hsd.trans h0
    refine ⟨?_, Or.inl hsz, ?_⟩
    · intro o ho hone
      exact absurd (hall o.FlightDuration (List.mem_map.mpr ⟨o, ho, rfl⟩)) hone
    · constructor
      · intro _ o ho
        exact hall o.FlightDuration (List.mem_map.mpr ⟨o, ho, rfl⟩)
      · intro _
        exact hsz
  · obtain ⟨o, ho, hoe⟩ := List.mem_map.mp hm
    refine ⟨?_, Or.inr ⟨o, ho, ?_, ?_⟩, ?_, ?_⟩
    · intro o2 ho2 h2ne
      rw [hsd]
      exact hall o2.FlightDuration (List.mem_map.mpr ⟨o2, ho2, rfl⟩) h2ne
    · rw [hsd]
      exact hoe.symm
    · rw [hoe]
      exact hne
    · intro hz
      exact absurd (hsd ▸ hz) hne
    · intro hallz
      exact absurd (hoe.symm.trans (hallz o ho)) hne

/-- Claim C7, witness: on offers with durations `[5, 0, 3]` the probe
reduction is bounded by 5, returns one of the nonzero durations, and is
zero iff every duration is zero. -/
theorem claim_C7_witness :
    shortestDuration [⟨0, 5⟩, ⟨0, 0⟩, ⟨0, 3⟩] ≤ (5 : Int) ∧
    (shortestDuration [⟨0, 5⟩, ⟨0, 0⟩, ⟨0, 3⟩] = 0 ∨
      ∃ o ∈ ([⟨0, 5⟩, ⟨0, 0⟩, ⟨0, 3⟩] : List FullOffer),
        shortestDuration [⟨0, 5⟩, ⟨0, 0⟩, ⟨0, 3⟩] = o.FlightDuration ∧
          o.FlightDuration ≠ 0) ∧
    (shortestDuration [⟨0, 5⟩, ⟨0, 0⟩, ⟨0, 3⟩] = 0 ↔
      ∀ o ∈ ([⟨0, 5⟩, ⟨0, 0⟩, ⟨0, 3⟩] : List FullOffer), o.FlightDuration = 0) :=
  ⟨(claim_C7 [⟨0, 5⟩, ⟨0, 0⟩, ⟨0, 3⟩]).1 ⟨0, 5⟩ (by decide) (by decide),
   (claim_C7 [⟨0, 5⟩, ⟨0, 0⟩, ⟨0, 3⟩]).2.1,
   (claim_C7 [⟨0, 5⟩, ⟨0, 0⟩, ⟨0, 3⟩]).2.2⟩

/-- Claim C8: the offer reduction in `GetActualOffers` applied to an empty
offer list yields the zero-price result, and applied to a single offer of
price P yields price P. -/
theorem claim_C8 :
    (bestOfferLoop []).Price = 0 ∧
    ∀ o : FullOffer, (bestOfferLoop [o]).Price = o.Price := by
  constructor
  · rfl
  · intro o
    simp [bestOfferLoop, FullOffer.zeroValue]

/-- Claim C2, counterexample: a failure-free run with one attendee in which
the price graph returns two candidate date pairs prints two best-offer
lines — more than the claimed at-most-one-per-attendee. -/
theorem claim_C2_counterexample :
    configW.Attendees.length = 1 ∧
    (runReqs envW sessAllOk (dispatchedQueries flagsW 10 20 configW)).2 = none ∧
    (runReqs envW sessAllOk (dispatchedQueries flagsW 10 20 configW)).1.length = 2 :=
  ⟨rfl, rfl, rfl⟩

/-- Claim C2, amended: with N attendees and no service failure the
coordinator dispatches exactly N queries, the run reports no error, and the
program prints one best-offer line per candidate date pair of each
attendee's price-graph result — a total that can exceed N. -/
theorem claim_C2 :
    ∀ (flags : Flags) (startDateParsed endDateParsed : Int) (config : Config)
      (env : Env) (session : Session),
      (∀ a, (session.GetOffers a).isOk = true) →
      (∀ g, (session.GetPriceGraph g).isOk = true) →
      (dispatchedQueries flags startDateParsed endDateParsed config).length =
        config.Attendees.length ∧
      (runReqs env session
        (dispatchedQueries flags startDateParsed endDateParsed config)).2 = none ∧
      (runReqs env session
        (dispatchedQueries flags startDateParsed endDateParsed config)).1.length =
        ((dispatchedQueries flags startDateParsed endDateParsed config).map
          (numDatePairs env session)).sum := by
  intro flags sp ep config env session hOff hGr
  obtain ⟨h2, h3⟩ :=
    runReqs_all_ok env session hOff hGr (dispatchedQueries flags sp ep config)
  refine ⟨?_, h2, h3⟩
  simp [dispatchedQueries]

/-- Claim C2, witness: the concrete failure-free run with one attendee
dispatches one query and prints one line per candidate date pair. -/
theorem claim_C2_witness :
    (dispatchedQueries flagsW 10 20 configW).length = configW.Attendees.length ∧
    (runReqs envW sessAllOk (dispatchedQueries flagsW 10 20 configW)).2 = none ∧
    (runReqs envW sessAllOk (dispatchedQueries flagsW 10 20 configW)).1.length =
      ((dispatchedQueries flagsW 10 20 configW).map
        (numDatePairs envW sessAllOk)).sum :=
  claim_C2 flagsW 10 20 configW envW sessAllOk (fun _ => rfl) (fun _ => rfl)

/-- Claim C6: every service failure is fatal and un-retried — a request's
processing ends without error iff its probe and price-graph calls succeed
and every per-date-pair offers call succeeds; a failing price-graph path
yields the error with no lines; the printed lines of a request are exactly
those of the date pairs before the first failing fetch; the whole run ends
without error iff every request processes without error; and the run's
output is the concatenation of the error-free prefix plus the partial
output of the first failing request — nothing after it. -/
theorem claim_C6 :
    ∀ (env : Env) (session : Session) (ReqE ReqO : PriceGraphArgs)
      (qs : List PriceGraphArgs),
      ((processReq env session ReqO).2 = none ↔
        ∃ pairs, graphPairs env session ReqO = Except.ok pairs ∧
          ∀ p ∈ pairs, (pairCall env session ReqO p).isOk = true) ∧
      (∀ e, graphPairs env session ReqE = Except.error e →
        processReq env session ReqE = ([], some e)) ∧
      (∀ pairs, graphPairs env session ReqO = Except.ok pairs →
        (processReq env session ReqO).1 =
          (pairs.takeWhile (fun p => (pairCall env session ReqO p).isOk)).filterMap
            (fun p => (pairCall env session ReqO p).toOption)) ∧
      ((runReqs env session qs).2 = none ↔
        ∀ q ∈ qs, (processReq env session q).2 = none) ∧
      ((runReqs env session qs).1 =
        (qs.takeWhile (fun q => (processReq env session q).2.isNone)).flatMap
          (fun q => (processReq env session q).1) ++
        (((qs.dropWhile (fun q => (processReq env session q).2.isNone)).head?.map
          (fun q => (processReq env session q).1)).getD [])) := by
  intro env session ReqE ReqO qs
  exact ⟨processReq_err_none_iff env session ReqO,
    fun e he => processReq_graph_error env session ReqE e he,
    fun pairs hp => processReq_lines env session ReqO pairs hp,
    runReqs_err_none_iff env session qs,
    runReqs_lines env session qs⟩

/-- Claim C6, witness: under `sessFail` the request for origin `"ERR"`
fails at the price graph and yields the bare error, and the request for
origin `"NYC"` prints exactly the lines of the date pairs before its
failing second fetch. -/
theorem claim_C6_witness :
    processReq envW sessFail reqErrW = ([], some "grapherr") ∧
    (processReq envW sessFail reqOkW).1 =
      (([⟨1, 2⟩, ⟨3, 4⟩, ⟨5, 6⟩] : List Offer).takeWhile
          (fun p => (pairCall envW sessFail reqOkW p).isOk)).filterMap
        (fun p => (pairCall envW sessFail reqOkW p).toOption) :=
  ⟨(claim_C6 envW sessFail reqErrW reqOkW []).2.1 "grapherr" rfl,
   (claim_C6 envW sessFail reqErrW reqOkW []).2.2.1 [⟨1, 2⟩, ⟨3, 4⟩, ⟨5, 6⟩] rfl⟩

/-- Claim C9: the query a worker submits to the price-graph call is the
dispatched query with exactly one change — `Options.Class` is set to the
class chosen from the duration probe; origin, destination, date-range and
all other fields are unchanged. -/
theorem claim_C9 :
    ∀ (env : Env) (session : Session) (Req Req2 : PriceGraphArgs),
      submittedQuery env session Req = Except.ok Req2 →
      ∃ d, lookup_flight_time env session (Req.SrcCities.headD "")
          (Req.DstCities.headD "") = Except.ok d ∧
        Req2 = { Req with Options :=
          { Req.Options with Class := GetFlightClassOfDuration d } } ∧
        Req2.SrcCities = Req.SrcCities ∧ Req2.DstCities = Req.DstCities ∧
        Req2.RangeStartDate = Req.RangeStartDate ∧
        Req2.RangeEndDate = Req.RangeEndDate ∧
        Req2.TripLength = Req.TripLength ∧
        Req2.Options.Travelers = Req.Options.Travelers ∧
        Req2.Options.Currency = Req.Options.Currency ∧
        Req2.Options.Stops = Req.Options.Stops ∧
        Req2.Options.TripType = Req.Options.TripType ∧
        Req2.Options.Lang = Req.Options.Lang ∧
        Req2.Options.Class = GetFlightClassOfDuration d := by
  intro env session Req Req2 h
  cases hl : lookup_flight_time env session (Req.SrcCities.headD "")
      (Req.DstCities.headD "") with
  | error e =>
      simp only [submittedQuery, GetFlightClass, hl] at h
      exact Except.noConfusion h
  | ok d =>
      simp only [submittedQuery, GetFlightClass, hl, Except.ok.injEq] at h
      subst h
      exact ⟨d, rfl, rfl, rfl, rfl, rfl, rfl, rfl, rfl, rfl, rfl, rfl, rfl, rfl⟩

/-- Claim C9, witness: the concrete request `reqClassW` (carrying a stale
Business class) is submitted as `reqClassW2`, identical except that its
class is the Economy class computed from the probe's zero duration. -/
theorem claim_C9_witness :
    ∃ d, lookup_flight_time envW sessAllOk (reqClassW.SrcCities.headD "")
        (reqClassW.DstCities.headD "") = Except.ok d ∧
      reqClassW2 = { reqClassW with Options :=
        { reqClassW.Options with Class := GetFlightClassOfDuration d } } ∧
      reqClassW2.SrcCities = reqClassW.SrcCities ∧
      reqClassW2.DstCities = reqClassW.DstCities ∧
      reqClassW2.RangeStartDate = reqClassW.RangeStartDate ∧
      reqClassW2.RangeEndDate = reqClassW.RangeEndDate ∧
      reqClassW2.TripLength = reqClassW.TripLength ∧
      reqClassW2.Options.Travelers = reqClassW.Options.Travelers ∧
      reqClassW2.Options.Currency = reqClassW.Options.Currency ∧
      reqClassW2.Options.Stops = reqClassW.Options.Stops ∧
      reqClassW2.Options.TripType = reqClassW.Options.TripType ∧
      reqClassW2.Options.Lang = reqClassW.Options.Lang ∧
      reqClassW2.Options.Class = GetFlightClassOfDuration d :=
  claim_C9 envW sessAllOk reqClassW reqClassW2 rfl

/-- Claim C10: when one of the four command-line inputs is absent
(an empty destination, start-date or end-date, or `nights = 0`) the program
stops at startup with the fatal validation message — for every
configuration reader, date parser and pricing session, showing none of them
is consulted; when all four are present (any nonzero nights, negative
included) the validation passes and the run continues with the
post-validation continuation. -/
theorem claim_C10 :
    ∀ (flagsA flagsB : Flags) (readConfig : Except String Config)
      (parseDate : String → Except String Int) (env : Env) (session : Session),
      ((flagsA.destination = "" ∨ flagsA.startDate = "" ∨ flagsA.endDate = "" ∨
          flagsA.nights = 0) →
        mainRun flagsA readConfig parseDate env session =
          ([], some flagsErrorMsg)) ∧
      (flagsB.destination ≠ "" → flagsB.startDate ≠ "" → flagsB.endDate ≠ "" →
        flagsB.nights ≠ 0 →
        mainRun flagsB readConfig parseDate env session =
          mainAfterFlags flagsB readConfig parseDate env session) := by
  intro flagsA flagsB rc pd env session
  constructor
  · intro h
    simp only [mainRun, if_pos h]
  · intro h1 h2 h3 h4
    simp only [mainRun]
    rw [if_neg]
    push_neg
    exact ⟨h1, h2, h3, h4⟩

/-- Claim C10, witness: with an empty destination the run stops with the
validation message even though the configuration reader holds a valid
configuration; with all four inputs present and `nights = -3` the
validation passes. -/
theorem claim_C10_witness :
    mainRun flagsMissingW (Except.ok configW) (fun _ => Except.ok 0) envW
        sessAllOk = ([], some flagsErrorMsg) ∧
    mainRun flagsNegW (Except.ok configW) (fun _ => Except.ok 0) envW
        sessAllOk =
      mainAfterFlags flagsNegW (Except.ok configW) (fun _ => Except.ok 0) envW
        sessAllOk :=
  ⟨(claim_C10 flagsMissingW flagsNegW (Except.ok configW)
      (fun _ => Except.ok 0) envW sessAllOk).1 (Or.inl rfl),
   (claim_C10 flagsMissingW flagsNegW (Except.ok configW)
      (fun _ => Except.ok 0) envW sessAllOk).2
     (by decide) (by decide) (by decide) (by decide)⟩
end TravelLocationFinder
